import Mathlib

/-!
Verification development for the `bmadhusu/tools` static-site build pipeline
(`gather_links.py`, `build_index.py`, `build_colophon.py`).

The pure string-processing core of the three Python scripts is embedded as
executable Lean functions over `List Char` / `String`; the file effects of
the pipeline are modelled by an explicit store `String → Option FileContent`.
Machine-level caveats of the embedding:
* Python `str` is modelled by Lean `String` (a list of unicode code points);
  slicing, splitting and stripping are modelled at code-point level, which
  matches CPython semantics.
* Regular expressions from the source are compiled by hand into
  deterministic scanners.  Every pattern used by the scripts is backtrack-free
  (a greedy character-class run followed by a character outside the class),
  so the scanners implement the exact `re` semantics for these patterns.
  The `\s`, `\d` classes are modelled at their ASCII meaning.
* Python's `set` iteration order is unspecified; `list(set(xs))` is modelled
  by `List.dedup`, which is faithful up to the (unspecified) ordering.
-/

/-- ASCII whitespace as recognised by Python's `str.strip()` and the regex
class `\s`: space, tab, newline, carriage return, vertical tab, form feed. -/
def pyIsSpace (c : Char) : Bool :=
  c == ' ' || c == '\t' || c == '\n' || c == '\r' || c == Char.ofNat 11 || c == Char.ofNat 12

/-- `str.strip()` on a list of characters: drop leading whitespace, then
drop trailing whitespace (via reverse). -/
def pystripL (l : List Char) : List Char :=
  ((l.dropWhile pyIsSpace).reverse.dropWhile pyIsSpace).reverse

/-- `str.strip()` on a `String`. -/
def pyStrip (s : String) : String :=
  String.mk (pystripL s.data)

/-- `str.split(sep, maxsplit)` for a single-character separator on a list of
characters: at most `n` splits, the remainder is kept whole. -/
def splitAtMostL (sep : Char) : Nat → List Char → List (List Char)
  | 0, l => [l]
  | Nat.succ n, l =>
    match l.dropWhile (fun c => !(c == sep)) with
    | [] => [l]
    | _ :: tail => l.takeWhile (fun c => !(c == sep)) :: splitAtMostL sep n tail

/-- `str.split(sep, maxsplit)` for a single-character separator. -/
def splitAtMost (sep : Char) (n : Nat) (s : String) : List String :=
  (splitAtMostL sep n s.data).map String.mk

/-- `str.split(sep)` for a single-character separator (unbounded), on a list
of characters.  `"".split(sep) = [""]` and adjacent separators produce empty
entries, as in Python. -/
def splitOnCharL (sep : Char) : List Char → List (List Char)
  | [] => [[]]
  | c :: cs =>
    match splitOnCharL sep cs with
    | [] => if c == sep then [[], []] else [[c]]
    | g :: gs => if c == sep then [] :: g :: gs else (c :: g) :: gs

/-- `str.split(sep)` for a single-character separator. -/
def splitOnChar (sep : Char) (s : String) : List String :=
  (splitOnCharL sep s.data).map String.mk

/-- A commit record as produced by `get_file_commit_details` in
`gather_links.py`: fields `hash`, `date`, `message`. -/
structure Commit where
  hash : String
  date : String
  message : String
deriving DecidableEq, Repr

/-- The entry-parsing loop body of `get_file_commit_details`
(`gather_links.py` lines 27-42): each NUL-separated entry is stripped;
empty entries are skipped; an entry is split on `|` with `maxsplit=2` and
only an entry with (at least, hence exactly) three parts yields a commit,
whose message is stripped. -/
def parseEntries : List String → List Commit
  | [] => []
  | raw :: rest =>
    let entry := pyStrip raw
    if entry = "" then parseEntries rest
    else
      match splitAtMost '|' 2 entry with
      | [h, d, m] => { hash := h, date := d, message := pyStrip m } :: parseEntries rest
      | _ => parseEntries rest

/-- `get_file_commit_details` (`gather_links.py` lines 14-42), as a function
of the raw `git log --format=%H|%aI|%B%x00` stdout for the file. -/
def get_file_commit_details (stdout : String) : List Commit :=
  parseEntries (splitOnChar (Char.ofNat 0) stdout)

/-- The characters of the literal `http://`. -/
def httpChars : List Char := ['h', 't', 't', 'p', ':', '/', '/']

/-- The characters of the literal `https://`. -/
def httpsChars : List Char := ['h', 't', 't', 'p', 's', ':', '/', '/']

/-- One attempted match of the regex `https?://C+` (for a character class
`C` given as the predicate `p`) at the start of `l`.  The greedy `s?` tries
`https://` first and falls back to `http://`; the class run `C+` is greedy
and must be non-empty.  Every pattern piece is backtrack-free, so this is
exactly the `re` semantics.  On success it returns the matched text and the
remaining input. -/
def matchUrl (p : Char → Bool) (l : List Char) : Option (List Char × List Char) :=
  if httpsChars.isPrefixOf l then
    let rest := l.drop 8
    let body := rest.takeWhile p
    if body = [] then none else some (httpsChars ++ body, rest.dropWhile p)
  else if httpChars.isPrefixOf l then
    let rest := l.drop 7
    let body := rest.takeWhile p
    if body = [] then none else some (httpChars ++ body, rest.dropWhile p)
  else none

/-- The non-overlapping left-to-right scan underlying `re.findall` and
`re.sub`: at every position the matcher `m` is tried; a match is emitted as
a `Sum.inr` piece and the scan resumes after it, otherwise the single
character is emitted as a `Sum.inl` piece.  `fuel` bounds the recursion and
is always instantiated with the input length, which suffices because every
match consumes at least one character. -/
def piecesF (m : List Char → Option (List Char × List Char)) :
    Nat → List Char → List (Char ⊕ List Char)
  | _, [] => []
  | 0, _ :: _ => []
  | Nat.succ fuel, c :: cs =>
    match m (c :: cs) with
    | some (u, r) => Sum.inr u :: piecesF m fuel r
    | none => Sum.inl c :: piecesF m fuel cs

/-- The character class of the URL regex in `gather_links.py` line 47:
`[^\s<>\"\')(\]\[}{\x00]+`. -/
def gatherBad : List Char :=
  ['<', '>', Char.ofNat 34, Char.ofNat 39, Char.ofNat 41, Char.ofNat 40,
   Char.ofNat 93, Char.ofNat 91, Char.ofNat 125, Char.ofNat 123, Char.ofNat 0]

/-- A character is allowed inside a URL by `gather_links.py`'s regex iff it
is neither whitespace nor one of the explicitly excluded characters. -/
def gatherAllowed (c : Char) : Bool :=
  !(pyIsSpace c || gatherBad.contains c)

/-- The trailing punctuation stripped from extracted URLs
(`gather_links.py` line 53: `url.rstrip('.,;:!?')`). -/
def puncts : List Char := ['.', ',', ';', ':', '!', '?']

/-- `str.rstrip('.,;:!?')` on a list of characters. -/
def rstripPunct (l : List Char) : List Char :=
  (l.reverse.dropWhile (fun c => puncts.contains c)).reverse

/-- The `Sum.inr` match pieces of a scan. -/
def matchedPiece : Char ⊕ List Char → Option (List Char) :=
  fun pc => match pc with
  | Sum.inl _ => none
  | Sum.inr u => some u

/-- `extract_urls` (`gather_links.py` lines 45-55): `re.findall` of the URL
pattern followed by `rstrip('.,;:!?')` on each match. -/
def extract_urls (text : String) : List String :=
  (((piecesF (matchUrl gatherAllowed) text.data.length text.data).filterMap
      matchedPiece).map (fun u => String.mk (rstripPunct u)))

/-- Case-insensitive literal match (the `re.IGNORECASE` flag of the
scripts' patterns): consume `pat` from the front of `l`, comparing
characters after `Char.toLower`, and return the remaining input. -/
def matchCI : List Char → List Char → Option (List Char)
  | [], l => some l
  | _ :: _, [] => none
  | p :: ps, c :: cs => if p.toLower == c.toLower then matchCI ps cs else none

/-- `re.search`: try the position matcher `m` at every position from left to
right (including the end-of-string position) and return the first result. -/
def searchFirst (m : List Char → Option (List Char)) : List Char → Option (List Char)
  | [] => m []
  | c :: cs =>
    match m (c :: cs) with
    | some g => some g
    | none => searchFirst m cs

/-- A quote character, for the regex class `["\']`. -/
def quoteChar (c : Char) : Bool := c == Char.ofNat 34 || c == Char.ofNat 39

/-- Consume one quote character. -/
def afterQuote : List Char → Option (List Char)
  | c :: r => if quoteChar c then some r else none
  | [] => none

/-- Consume `\s+` (one or more whitespace characters, greedily). -/
def wsPlus : List Char → Option (List Char)
  | c :: r => if pyIsSpace c then some (r.dropWhile pyIsSpace) else none
  | [] => none

/-- Consume the group `([^"\']+)` followed by a closing `["\']`, returning
the group text. -/
def grabUntilQuote (l : List Char) : Option (List Char) :=
  match l.takeWhile (fun c => !(quoteChar c)) with
  | [] => none
  | g =>
    match l.dropWhile (fun c => !(quoteChar c)) with
    | [] => none
    | _ :: _ => some g

/-- A match attempt of the meta-description pattern of `gather_links.py`
lines 82-86, `<meta\s+name=["\']description["\']\s+content=["\']([^"\']+)["\']`
with `re.IGNORECASE`, at the start of the input; returns group 1. -/
def metaAt (l : List Char) : Option (List Char) :=
  (matchCI "<meta".data l).bind fun r1 =>
  (wsPlus r1).bind fun r2 =>
  (matchCI "name=".data r2).bind fun r3 =>
  (afterQuote r3).bind fun r4 =>
  (matchCI "description".data r4).bind fun r5 =>
  (afterQuote r5).bind fun r6 =>
  (wsPlus r6).bind fun r7 =>
  (matchCI "content=".data r7).bind fun r8 =>
  (afterQuote r8).bind fun r9 =>
  grabUntilQuote r9

/-- A match attempt of the first-paragraph pattern of `gather_links.py`
line 91, `<p[^>]*>([^<]+)</p>` with `re.IGNORECASE`, at the start of the
input; returns group 1. -/
def pAt (l : List Char) : Option (List Char) :=
  (matchCI "<p".data l).bind fun r1 =>
  (match r1.dropWhile (fun c => !(c == '>')) with
   | [] => none
   | _ :: r2 => some r2).bind fun r2 =>
  (match r2.takeWhile (fun c => !(c == '<')) with
   | [] => none
   | g =>
     (matchCI "</p>".data (r2.dropWhile (fun c => !(c == '<')))).bind fun _ =>
     some g)

/-- A match attempt of the title pattern of `gather_links.py` line 65,
`<title>([^<]+)</title>` with `re.IGNORECASE`, at the start of the input;
returns group 1. -/
def titleAt (l : List Char) : Option (List Char) :=
  (matchCI "<title>".data l).bind fun r1 =>
  (match r1.takeWhile (fun c => !(c == '<')) with
   | [] => none
   | g =>
     (matchCI "</title>".data (r1.dropWhile (fun c => !(c == '<')))).bind fun _ =>
     some g)

/-- `pathlib.PurePath.stem`: the file name without its last suffix, where a
suffix requires a dot at an index `i` with `0 < i < len - 1`. -/
def pyStem (s : String) : String :=
  let n := s.data
  let j := (n.reverse.takeWhile (fun c => !(c == '.'))).length
  if j = n.length then s
  else
    let i := n.length - 1 - j
    if 0 < i ∧ i < n.length - 1 then String.mk (n.take i) else s

/-- The recursion of `str.title()` (ASCII): a cased character is
upper-cased after an uncased character and lower-cased after a cased one. -/
def pyTitleGo : Bool → List Char → List Char
  | _, [] => []
  | prevCased, c :: r =>
    if c.isAlpha then
      (if prevCased then c.toLower else c.toUpper) :: pyTitleGo true r
    else c :: pyTitleGo false r

/-- `str.title()` (ASCII). -/
def pyTitle (s : String) : String := String.mk (pyTitleGo false s.data)

/-- The `.replace('-', ' ').replace('_', ' ')` of `gather_links.py` line 72. -/
def dashesToSpaces (s : String) : String :=
  String.mk (s.data.map (fun c => if c == '-' || c == '_' then ' ' else c))

/-- `extract_title` (`gather_links.py` lines 58-72).  The file read is
modelled by an `Option String` (`none` = the read raised); both a failed
read and a missing `<title>` fall through to the title-cased file stem. -/
def extract_title (htmlPath : String) (content : Option String) : String :=
  match content with
  | some c =>
    match searchFirst titleAt c.data with
    | some g => pyStrip (String.mk g)
    | none => pyTitle (dashesToSpaces (pyStem htmlPath))
  | none => pyTitle (dashesToSpaces (pyStem htmlPath))

/-- `extract_description` (`gather_links.py` lines 75-97): the meta
description if present, else the first `<p>` text stripped and truncated to
200 characters, else the empty string; a failed read also yields `""`. -/
def extract_description (content : Option String) : String :=
  match content with
  | none => ""
  | some c =>
    match searchFirst metaAt c.data with
    | some g => pyStrip (String.mk g)
    | none =>
      match searchFirst pAt c.data with
      | some g => String.mk ((pystripL g).take 200)
      | none => ""

/-- A Tool record as assembled by `main` in `gather_links.py`
(lines 132-141). -/
structure Tool where
  file : String
  slug : String
  title : String
  description : String
  commits : List Commit
  urls : List String
  created : Option String
  updated : Option String
deriving DecidableEq, Repr

/-- The per-file inputs of a gather run: the file name, the stdout of
`git log --format=%H|%aI|%B%x00 --follow -- <file>` for it, and its
contents (`none` = reading raised).  These are the subprocess/filesystem
boundaries of `gather_links.py`. -/
structure FileInput where
  name : String
  gitStdout : String
  content : Option String

/-- The generated files skipped by the gather scan
(`gather_links.py` line 110). -/
def skipNames : List String := ["index.html", "colophon.html", "by-month.html"]

/-- One iteration of the `main` loop of `gather_links.py` (lines 106-141):
generated files are skipped, files with no commit history are skipped, and
otherwise a Tool record is assembled.  `created` is the date of the last
commit in git-log order, `updated` the date of the first;
`list(set(all_urls))` is modelled by `List.dedup`. -/
def toolOfInput (fi : FileInput) : Option Tool :=
  if fi.name ∈ skipNames then none
  else
    let commits := get_file_commit_details fi.gitStdout
    if commits = [] then none
    else
      some { file := fi.name
             slug := pyStem fi.name
             title := extract_title fi.name fi.content
             description := extract_description fi.content
             commits := commits
             urls := (commits.flatMap (fun c => extract_urls c.message)).dedup
             created := commits.getLast?.map Commit.date
             updated := commits.head?.map Commit.date }

/-- The sort order of `gather_links.py` line 144:
`tools.sort(key=lambda x: x['updated'] or '', reverse=True)` — descending
string comparison on `updated`, a missing value behaving as `''`. -/
def toolOrder (a b : Tool) : Prop :=
  (b.updated.getD "") ≤ (a.updated.getD "")

instance : DecidableRel toolOrder :=
  fun a b => inferInstanceAs (Decidable ((b.updated.getD "") ≤ (a.updated.getD "")))

/-- The list of Tool records of a gather run, in the order written to
`gathered_links.json`: the per-file records in scan order, stably sorted by
most recently updated. -/
def gatherTools (inputs : List FileInput) : List Tool :=
  List.insertionSort toolOrder (inputs.filterMap toolOfInput)

/-- The lines printed by a (successful) gather run
(`gather_links.py` lines 150-152). -/
def gatherMessages (inputs : List FileInput) : List String :=
  let tools := gatherTools inputs
  ("Gathered data for " ++ toString tools.length ++ " tool(s)") ::
    tools.map (fun t =>
      "  - " ++ t.title ++ " (" ++ toString t.commits.length ++ " commits)")

/-- One escaped character of `html.escape` (with its default `quote=True`):
`&`, `<`, `>`, `"`, `'` become entities, everything else is unchanged.
CPython implements this as a sequence of `str.replace` calls whose
replacement texts never contain a later target, so it is exactly this
character-wise map. -/
def escChar (c : Char) : List Char :=
  if c == '&' then "&amp;".data
  else if c == '<' then "&lt;".data
  else if c == '>' then "&gt;".data
  else if c == Char.ofNat 34 then "&quot;".data
  else if c == Char.ofNat 39 then "&#x27;".data
  else [c]

/-- `html.escape` on a list of characters. -/
def escChars (l : List Char) : List Char := l.flatMap escChar

/-- `html.escape` on a `String`. -/
def htmlEscape (s : String) : String := String.mk (escChars s.data)

/-- The repository constant `GITHUB_REPO` of both build scripts. -/
def githubRepo : String := "bmadhusu/tools"

/-- The character class of the URL pattern in `build_colophon.py` line 31:
`[^\s<>&]`. -/
def colophonAllowed (c : Char) : Bool :=
  !(pyIsSpace c || c == '<' || c == '>' || c == '&')

/-- The replacement text of the URL linkification in `build_colophon.py`
lines 32-36: `<a href="\1" target="_blank" rel="noopener">\1</a>`. -/
def anchorChars (u : List Char) : List Char :=
  "<a href=".data ++ [Char.ofNat 34] ++ u ++ [Char.ofNat 34] ++
    " target=".data ++ [Char.ofNat 34] ++ "_blank".data ++ [Char.ofNat 34] ++
    " rel=".data ++ [Char.ofNat 34] ++ "noopener".data ++ [Char.ofNat 34] ++ ">".data ++
    u ++ "</a>".data

/-- Render one scan piece of the URL substitution: plain characters are
copied, matches are replaced by their anchor. -/
def urlRepl : Char ⊕ List Char → List Char
  | Sum.inl c => [c]
  | Sum.inr u => anchorChars u

/-- The URL linkification pass of `format_commit_message`
(`build_colophon.py` lines 30-36). -/
def linkifyUrls (l : List Char) : List Char :=
  (piecesF (matchUrl colophonAllowed) l.length l).flatMap urlRepl

/-- A match attempt of the issue pattern `#(\d+)` of `build_colophon.py`
line 40 at the start of the input: `#` followed by one or more (ASCII)
digits, greedily. -/
def matchIssue (l : List Char) : Option (List Char × List Char) :=
  match l with
  | c :: rest =>
    if c == '#' then
      match rest.takeWhile Char.isDigit with
      | [] => none
      | ds => some (c :: ds, rest.dropWhile Char.isDigit)
    else none
  | [] => none

/-- The replacement text of the issue linkification in `build_colophon.py`
lines 39-43: `<a href="https://github.com/{GITHUB_REPO}/issues/\1">#\1</a>`,
where the matched text is `#` followed by the digits. -/
def issueAnchor (ds : List Char) : List Char :=
  "<a href=".data ++ [Char.ofNat 34] ++
    ("https://github.com/" ++ githubRepo ++ "/issues/").data ++ ds ++
    [Char.ofNat 34] ++ ">#".data ++ ds ++ "</a>".data

/-- Render one scan piece of the issue substitution. -/
def issueRepl : Char ⊕ List Char → List Char
  | Sum.inl c => [c]
  | Sum.inr u => issueAnchor u.tail

/-- The issue linkification pass of `format_commit_message`
(`build_colophon.py` lines 38-43). -/
def linkifyIssues (l : List Char) : List Char :=
  (piecesF matchIssue l.length l).flatMap issueRepl

/-- The newline pass of `format_commit_message` (`build_colophon.py`
line 46): `.replace('\n', '<br>\n')`. -/
def brChar (c : Char) : List Char :=
  if c == '\n' then "<br>\n".data else [c]

/-- The newline pass applied to every character. -/
def brExpand (l : List Char) : List Char :=
  l.flatMap brChar

/-- `format_commit_message` (`build_colophon.py` lines 25-48): HTML-escape,
linkify URLs, linkify GitHub issue references, convert newlines to
`<br>`. -/
def format_commit_message (message : String) : String :=
  String.mk (brExpand (linkifyIssues (linkifyUrls (escChars message.data))))

/-- The numeric value of a list of ASCII digits. -/
def digitsVal (l : List Char) : Nat :=
  l.foldl (fun a c => 10 * a + (c.toNat - 48)) 0

/-- Parse exactly two ASCII digits. -/
def parse2 : List Char → Option (Nat × List Char)
  | a :: b :: r => if a.isDigit && b.isDigit then some (digitsVal [a, b], r) else none
  | _ => none

/-- Parse exactly four ASCII digits. -/
def parse4 : List Char → Option (Nat × List Char)
  | a :: b :: c :: d :: r =>
    if a.isDigit && b.isDigit && c.isDigit && d.isDigit then
      some (digitsVal [a, b, c, d], r)
    else none
  | _ => none

/-- Consume one expected character. -/
def expectChar (e : Char) : List Char → Option (List Char)
  | c :: r => if c == e then some r else none
  | [] => none

/-- Gregorian leap year, as validated by `datetime`. -/
def isLeap (y : Nat) : Bool :=
  y % 4 == 0 && (y % 100 != 0 || y % 400 == 0)

/-- Days in a month, as validated by `datetime`. -/
def daysInMonth (y m : Nat) : Nat :=
  if m = 2 then (if isLeap y then 29 else 28)
  else if m = 4 ∨ m = 6 ∨ m = 9 ∨ m = 11 then 30
  else 31

/-- Validate an optional fractional-seconds part followed by `rest`. -/
def validFrac (l : List Char) (k : List Char → Bool) : Bool :=
  match l with
  | c :: r =>
    if c == '.' || c == ',' then
      match r.takeWhile Char.isDigit with
      | [] => false
      | ds => decide (ds.length ≤ 6) && k (r.dropWhile Char.isDigit)
    else k l
  | [] => k []

/-- Validate a UTC-offset suffix `±HH:MM[:SS[.ffffff]]` or the empty
remainder. -/
def validTz : List Char → Bool
  | [] => true
  | c :: r =>
    (c == '+' || c == '-') &&
    (match parse2 r with
     | none => false
     | some (hh, r1) =>
       decide (hh ≤ 23) &&
       (match expectChar ':' r1 with
        | none => false
        | some r2 =>
          match parse2 r2 with
          | none => false
          | some (mm, r3) =>
            decide (mm ≤ 59) &&
            (match r3 with
             | [] => true
             | _ =>
               match expectChar ':' r3 with
               | none => false
               | some r4 =>
                 match parse2 r4 with
                 | none => false
                 | some (ss, r5) => decide (ss ≤ 59) && validFrac r5 List.isEmpty)))

/-- Validate a time-of-day part `HH[:MM[:SS[.ffffff]]]` followed by an
optional UTC offset. -/
def validTime (l : List Char) : Bool :=
  match parse2 l with
  | none => false
  | some (hh, r1) =>
    decide (hh ≤ 23) &&
    (match r1 with
     | [] => true
     | c :: _ =>
       if c == ':' then
         match parse2 r1.tail with
         | none => false
         | some (mm, r2) =>
           decide (mm ≤ 59) &&
           (match r2 with
            | [] => true
            | c2 :: _ =>
              if c2 == ':' then
                match parse2 r2.tail with
                | none => false
                | some (ss, r3) => decide (ss ≤ 59) && validFrac r3 validTz
              else validFrac r2 validTz)
       else validTz r1)

/-- `datetime.fromisoformat`, modelled for the dashed/colon ISO-8601 forms
(CPython 3.11 grammar: `YYYY-MM-DD[<sep>HH[:MM[:SS[.ffffff]]][±HH:MM]]`,
any single character as the date-time separator): returns the calendar
date on success. -/
def parseIsoDate (s : String) : Option (Nat × Nat × Nat) :=
  match parse4 s.data with
  | none => none
  | some (y, r1) =>
    match expectChar '-' r1 with
    | none => none
    | some r2 =>
      match parse2 r2 with
      | none => none
      | some (m, r3) =>
        match expectChar '-' r3 with
        | none => none
        | some r4 =>
          match parse2 r4 with
          | none => none
          | some (d, r5) =>
            let timeOk :=
              match r5 with
              | [] => true
              | _ :: tr => validTime tr
            if timeOk && decide (1 ≤ y) && decide (1 ≤ m) && decide (m ≤ 12) &&
                decide (1 ≤ d) && decide (d ≤ daysInMonth y m) then
              some (y, m, d)
            else none

/-- `str.replace('Z', '+00:00')` (all occurrences). -/
def replaceZ (s : String) : String :=
  String.mk (s.data.flatMap (fun c => if c == 'Z' then "+00:00".data else [c]))

/-- The abbreviated month names of `strftime('%b')` (C locale). -/
def monthAbbrev (m : Nat) : String :=
  (["Jan", "Feb", "Mar", "Apr", "May", "Jun",
    "Jul", "Aug", "Sep", "Oct", "Nov", "Dec"].getD (m - 1) "")

/-- The full month names of `strftime('%B')` (C locale). -/
def monthFull (m : Nat) : String :=
  (["January", "February", "March", "April", "May", "June", "July",
    "August", "September", "October", "November", "December"].getD (m - 1) "")

/-- Zero-padded two-digit day of `strftime('%d')`. -/
def pad2 (n : Nat) : String :=
  if n < 10 then "0" ++ toString n else toString n

/-- `format_date` of `build_index.py` (lines 14-20): `fromisoformat` after
replacing `Z`, rendered as `%b %d, %Y`; any parse failure returns the input
unchanged. -/
def format_date_index (isoDate : String) : String :=
  match parseIsoDate (replaceZ isoDate) with
  | some (y, m, d) => monthAbbrev m ++ " " ++ pad2 d ++ ", " ++ toString y
  | none => isoDate

/-- `format_date` of `build_colophon.py` (lines 16-22): as in the index
build but rendered as `%B %d, %Y`. -/
def format_date_colophon (isoDate : String) : String :=
  match parseIsoDate (replaceZ isoDate) with
  | some (y, m, d) => monthFull m ++ " " ++ pad2 d ++ ", " ++ toString y
  | none => isoDate

/-- The pluralisation expression `'s' if n != 1 else ''` of the build
scripts. -/
def plural (n : Nat) : String := if n ≠ 1 then "s" else ""

/-! HTML template text of the two build scripts, split at the f-string
interpolation sites.  Literal braces and apostrophes are hex-escaped. -/

def idxCard0 : String := "\n            <article class=\"tool-card\">\n                <h2><a href=\""
def idxCard1 : String := ".html\">"
def idxCard2 : String := "</a></h2>\n                <p class=\"description\">"
def idxCard3 : String := "</p>\n                <div class=\"meta\">\n                    <span class=\"updated\">Updated "
def idxCard4 : String := "</span>\n                    <a href=\"colophon.html#"
def idxCard5 : String := "\" class=\"history-link\">History</a>\n                </div>\n            </article>\n        "
def idxPage0 : String := "<!DOCTYPE html>\n<html lang=\"en\">\n<head>\n    <meta charset=\"UTF-8\">\n    <meta name=\"viewport\" content=\"width=device-width, initial-scale=1.0\">\n    <title>Tools</title>\n    <style>\n        :root \x7b\n            --bg: #ffffff;\n            --text: #1a1a1a;\n            --muted: #666666;\n            --border: #e5e5e5;\n            --link: #0066cc;\n            --link-hover: #0052a3;\n            --card-bg: #fafafa;\n            --accent: #6366f1;\n        \x7d\n\n        @media (prefers-color-scheme: dark) \x7b\n            :root \x7b\n                --bg: #1a1a1a;\n                --text: #e5e5e5;\n                --muted: #999999;\n                --border: #333333;\n                --link: #66b3ff;\n                --link-hover: #99ccff;\n                --card-bg: #242424;\n                --accent: #818cf8;\n            \x7d\n        \x7d\n\n        * \x7b\n            box-sizing: border-box;\n        \x7d\n\n        body \x7b\n            font-family: -apple-system, BlinkMacSystemFont, \x27Segoe UI\x27, Roboto, Oxygen, Ubuntu, sans-serif;\n            line-height: 1.6;\n            max-width: 900px;\n            margin: 0 auto;\n            padding: 2rem 1rem;\n            background: var(--bg);\n            color: var(--text);\n        \x7d\n\n        header \x7b\n            margin-bottom: 2rem;\n            padding-bottom: 1.5rem;\n            border-bottom: 2px solid var(--accent);\n        \x7d\n\n        header h1 \x7b\n            margin: 0 0 0.5rem 0;\n            font-size: 2rem;\n        \x7d\n\n        header p \x7b\n            margin: 0;\n            color: var(--muted);\n        \x7d\n\n        nav \x7b\n            margin-top: 1rem;\n        \x7d\n\n        nav a \x7b\n            margin-right: 1rem;\n            color: var(--link);\n            text-decoration: none;\n        \x7d\n\n        nav a:hover \x7b\n            text-decoration: underline;\n        \x7d\n\n        .tools-grid \x7b\n            display: grid;\n            gap: 1.5rem;\n        \x7d\n\n        .tool-card \x7b\n            background: var(--card-bg);\n            border: 1px solid var(--border);\n            border-radius: 8px;\n            padding: 1.5rem;\n        \x7d\n\n        .tool-card h2 \x7b\n            margin: 0 0 0.5rem 0;\n            font-size: 1.25rem;\n        \x7d\n\n        .tool-card h2 a \x7b\n            color: var(--text);\n            text-decoration: none;\n        \x7d\n\n        .tool-card h2 a:hover \x7b\n            color: var(--link);\n        \x7d\n\n        .tool-card .description \x7b\n            margin: 0 0 1rem 0;\n            color: var(--muted);\n            font-size: 0.95rem;\n        \x7d\n\n        .tool-card .meta \x7b\n            display: flex;\n            justify-content: space-between;\n            align-items: center;\n            font-size: 0.85rem;\n        \x7d\n\n        .tool-card .updated \x7b\n            color: var(--muted);\n        \x7d\n\n        .tool-card .history-link \x7b\n            color: var(--link);\n            text-decoration: none;\n        \x7d\n\n        .tool-card .history-link:hover \x7b\n            text-decoration: underline;\n        \x7d\n\n        footer \x7b\n            margin-top: 3rem;\n            padding-top: 1.5rem;\n            border-top: 1px solid var(--border);\n            color: var(--muted);\n            font-size: 0.9rem;\n        \x7d\n\n        @media (max-width: 600px) \x7b\n            body \x7b\n                padding: 1rem;\n            \x7d\n\n            header h1 \x7b\n                font-size: 1.5rem;\n            \x7d\n        \x7d\n    </style>\n</head>\n<body>\n    <header>\n        <h1>Tools</h1>\n        <p>A collection of "
def idxPage1 : String := " useful tool"
def idxPage2 : String := " built with AI assistance.</p>\n        <nav>\n            <a href=\"colophon.html\">Colophon</a>\n            <a href=\"https://github.com/"
def idxPage3 : String := "\">GitHub</a>\n        </nav>\n    </header>\n\n    <main class=\"tools-grid\">\n        "
def idxPage4 : String := "\n    </main>\n\n    <footer>\n        <p>\n            View the <a href=\"colophon.html\">colophon</a> for development history\n            and AI session transcripts.\n        </p>\n    </footer>\n</body>\n</html>\n"
def colCommit0 : String := "\n                <div class=\"commit\">\n                    <div class=\"commit-header\">\n                        <a href=\""
def colCommit1 : String := "\" target=\"_blank\" rel=\"noopener\" class=\"commit-hash\">"
def colCommit2 : String := "</a>\n                        <span class=\"commit-date\">"
def colCommit3 : String := "</span>\n                    </div>\n                    <div class=\"commit-message\">"
def colCommit4 : String := "</div>\n                </div>\n            "
def colSection0 : String := "\n            <section class=\"tool\" id=\""
def colSection1 : String := "\">\n                <h2>\n                    <a href=\"#"
def colSection2 : String := "\" class=\"anchor\">#</a>\n                    <a href=\""
def colSection3 : String := ".html\">"
def colSection4 : String := "</a>\n                </h2>\n                "
def colSection5 : String := "\n                <p class=\"meta\">\n                    <a href=\""
def colSection6 : String := "\" target=\"_blank\" rel=\"noopener\">View source on GitHub</a>\n                </p>\n                <details class=\"commits\">\n                    <summary>Development history ("
def colSection7 : String := " commit"
def colSection8 : String := ")</summary>\n                    <div class=\"commits-list\">\n                        "
def colSection9 : String := "\n                    </div>\n                </details>\n            </section>\n        "
def colPage0 : String := "<!DOCTYPE html>\n<html lang=\"en\">\n<head>\n    <meta charset=\"UTF-8\">\n    <meta name=\"viewport\" content=\"width=device-width, initial-scale=1.0\">\n    <title>Colophon - Tools</title>\n    <style>\n        :root \x7b\n            --bg: #ffffff;\n            --text: #1a1a1a;\n            --muted: #666666;\n            --border: #e5e5e5;\n            --link: #0066cc;\n            --link-hover: #0052a3;\n            --code-bg: #f5f5f5;\n            --accent: #6366f1;\n        \x7d\n\n        @media (prefers-color-scheme: dark) \x7b\n            :root \x7b\n                --bg: #1a1a1a;\n                --text: #e5e5e5;\n                --muted: #999999;\n                --border: #333333;\n                --link: #66b3ff;\n                --link-hover: #99ccff;\n                --code-bg: #2a2a2a;\n                --accent: #818cf8;\n            \x7d\n        \x7d\n\n        * \x7b\n            box-sizing: border-box;\n        \x7d\n\n        body \x7b\n            font-family: -apple-system, BlinkMacSystemFont, \x27Segoe UI\x27, Roboto, Oxygen, Ubuntu, sans-serif;\n            line-height: 1.6;\n            max-width: 900px;\n            margin: 0 auto;\n            padding: 2rem 1rem;\n            background: var(--bg);\n            color: var(--text);\n        \x7d\n\n        header \x7b\n            margin-bottom: 3rem;\n            padding-bottom: 1.5rem;\n            border-bottom: 2px solid var(--accent);\n        \x7d\n\n        header h1 \x7b\n            margin: 0 0 0.5rem 0;\n            font-size: 2rem;\n        \x7d\n\n        header p \x7b\n            margin: 0;\n            color: var(--muted);\n        \x7d\n\n        nav \x7b\n            margin-top: 1rem;\n        \x7d\n\n        nav a \x7b\n            margin-right: 1rem;\n            color: var(--link);\n            text-decoration: none;\n        \x7d\n\n        nav a:hover \x7b\n            text-decoration: underline;\n        \x7d\n\n        .tool \x7b\n            margin-bottom: 2.5rem;\n            padding-bottom: 2rem;\n            border-bottom: 1px solid var(--border);\n        \x7d\n\n        .tool:last-child \x7b\n            border-bottom: none;\n        \x7d\n\n        .tool h2 \x7b\n            margin: 0 0 0.5rem 0;\n            font-size: 1.5rem;\n        \x7d\n\n        .tool h2 a \x7b\n            color: var(--text);\n            text-decoration: none;\n        \x7d\n\n        .tool h2 a:hover \x7b\n            color: var(--link);\n        \x7d\n\n        .anchor \x7b\n            color: var(--muted);\n            margin-right: 0.5rem;\n            opacity: 0.3;\n            text-decoration: none;\n        \x7d\n\n        .tool:hover .anchor \x7b\n            opacity: 1;\n        \x7d\n\n        .description \x7b\n            color: var(--muted);\n            margin: 0.5rem 0;\n        \x7d\n\n        .meta \x7b\n            font-size: 0.9rem;\n            margin: 0.5rem 0 1rem 0;\n        \x7d\n\n        .meta a \x7b\n            color: var(--link);\n            text-decoration: none;\n        \x7d\n\n        .meta a:hover \x7b\n            text-decoration: underline;\n        \x7d\n\n        details.commits \x7b\n            margin-top: 1rem;\n        \x7d\n\n        details.commits summary \x7b\n            cursor: pointer;\n            color: var(--link);\n            font-size: 0.9rem;\n        \x7d\n\n        details.commits summary:hover \x7b\n            text-decoration: underline;\n        \x7d\n\n        .commits-list \x7b\n            margin-top: 1rem;\n            padding-left: 1rem;\n            border-left: 2px solid var(--border);\n        \x7d\n\n        .commit \x7b\n            margin-bottom: 1.5rem;\n        \x7d\n\n        .commit:last-child \x7b\n            margin-bottom: 0;\n        \x7d\n\n        .commit-header \x7b\n            display: flex;\n            gap: 1rem;\n            align-items: center;\n            margin-bottom: 0.25rem;\n        \x7d\n\n        .commit-hash \x7b\n            font-family: \x27SF Mono\x27, Monaco, \x27Courier New\x27, monospace;\n            font-size: 0.85rem;\n            color: var(--accent);\n            text-decoration: none;\n            background: var(--code-bg);\n            padding: 0.1rem 0.4rem;\n            border-radius: 3px;\n        \x7d\n\n        .commit-hash:hover \x7b\n            text-decoration: underline;\n        \x7d\n\n        .commit-date \x7b\n            font-size: 0.85rem;\n            color: var(--muted);\n        \x7d\n\n        .commit-message \x7b\n            font-size: 0.9rem;\n            white-space: pre-wrap;\n            word-break: break-word;\n        \x7d\n\n        .commit-message a \x7b\n            color: var(--link);\n            text-decoration: none;\n        \x7d\n\n        .commit-message a:hover \x7b\n            text-decoration: underline;\n        \x7d\n\n        footer \x7b\n            margin-top: 3rem;\n            padding-top: 1.5rem;\n            border-top: 1px solid var(--border);\n            color: var(--muted);\n            font-size: 0.9rem;\n        \x7d\n\n        @media (max-width: 600px) \x7b\n            body \x7b\n                padding: 1rem;\n            \x7d\n\n            header h1 \x7b\n                font-size: 1.5rem;\n            \x7d\n\n            .tool h2 \x7b\n                font-size: 1.25rem;\n            \x7d\n\n            .commit-header \x7b\n                flex-direction: column;\n                align-items: flex-start;\n                gap: 0.25rem;\n            \x7d\n        \x7d\n    </style>\n</head>\n<body>\n    <header>\n        <h1>Colophon</h1>\n        <p>Development history and AI session transcripts for "
def colPage1 : String := " tool"
def colPage2 : String := ".</p>\n        <nav>\n            <a href=\"index.html\">All Tools</a>\n            <a href=\"https://github.com/"
def colPage3 : String := "\">GitHub</a>\n        </nav>\n    </header>\n\n    <main>\n        "
def colPage4 : String := "\n    </main>\n\n    <footer>\n        <p>\n            This page shows the commit history for each tool, including links to\n            Claude Code session transcripts where available.\n        </p>\n    </footer>\n\n    <script>\n        // Auto-expand commits if navigating to a specific tool\n        if (window.location.hash) \x7b\n            const tool = document.querySelector(window.location.hash);\n            if (tool) \x7b\n                const details = tool.querySelector(\x27details\x27);\n                if (details) details.open = true;\n            \x7d\n        \x7d\n    </script>\n</body>\n</html>\n"

/-- One tool card of the index page (`build_index.py` lines 35-48). -/
def toolCard (t : Tool) : String :=
  let description := if t.description ≠ "" then htmlEscape t.description else "A useful tool."
  let updated :=
    match t.updated with
    | some d => if d ≠ "" then format_date_index d else ""
    | none => ""
  idxCard0 ++ t.slug ++ idxCard1 ++ htmlEscape t.title ++ idxCard2 ++ description ++
    idxCard3 ++ updated ++ idxCard4 ++ t.slug ++ idxCard5

/-- The full `index.html` text (`build_index.py` lines 33-219). -/
def renderIndexPage (tools : List Tool) : String :=
  idxPage0 ++ toString tools.length ++ idxPage1 ++ plural tools.length ++ idxPage2 ++
    githubRepo ++ idxPage3 ++ String.join (tools.map toolCard) ++ idxPage4

/-- One commit entry of the colophon page (`build_colophon.py`
lines 64-79). -/
def commitHtml (c : Commit) : String :=
  let commitUrl := "https://github.com/" ++ githubRepo ++ "/commit/" ++ c.hash
  let shortHash := String.mk (c.hash.data.take 7)
  colCommit0 ++ commitUrl ++ colCommit1 ++ shortHash ++ colCommit2 ++
    format_date_colophon c.date ++ colCommit3 ++ format_commit_message c.message ++ colCommit4

/-- One tool section of the colophon page (`build_colophon.py`
lines 63-101). -/
def toolSection (t : Tool) : String :=
  let toolUrl := "https://github.com/" ++ githubRepo ++ "/blob/main/" ++ t.file
  let description := if t.description ≠ "" then htmlEscape t.description else ""
  let descriptionPara :=
    if description ≠ "" then
      "<p class=" ++ String.mk [Char.ofNat 34] ++ "description" ++
        String.mk [Char.ofNat 34] ++ ">" ++ description ++ "</p>"
    else ""
  colSection0 ++ t.slug ++ colSection1 ++ t.slug ++ colSection2 ++ t.slug ++ colSection3 ++
    htmlEscape t.title ++ colSection4 ++ descriptionPara ++ colSection5 ++ toolUrl ++
    colSection6 ++ toString t.commits.length ++ colSection7 ++ plural t.commits.length ++
    colSection8 ++ String.join (t.commits.map commitHtml) ++ colSection9

/-- The full `colophon.html` text (`build_colophon.py` lines 61-364). -/
def renderColophonPage (tools : List Tool) : String :=
  colPage0 ++ toString tools.length ++ colPage1 ++ plural tools.length ++ colPage2 ++
    githubRepo ++ colPage3 ++ String.join (tools.map toolSection) ++ colPage4

/-- The contents of a file written or read by the pipeline.  The
intermediate JSON file is held in its deserialised form: `json.dump`
followed by `json.load` round-trips the list of Tool records, so the
serialisation itself is modelled as the identity. -/
inductive FileContent where
  | jsonTools : List Tool → FileContent
  | page : String → FileContent
deriving DecidableEq

/-- The working directory as a store from file names to contents. -/
def FS : Type := String → Option FileContent

/-- Writing one file. -/
def setFile (fs : FS) (n : String) (c : FileContent) : FS :=
  fun m => if m = n then some c else fs m

/-- The effect of a `gather_links.py` run (`main`, lines 100-152) on the
working directory, together with the lines it prints: it writes the sorted
Tool records to `gathered_links.json` and prints a summary. -/
def gatherStep (inputs : List FileInput) (fs : FS) : FS × List String :=
  (setFile fs "gathered_links.json" (FileContent.jsonTools (gatherTools inputs)),
   gatherMessages inputs)

/-- The error message printed by both build scripts when the intermediate
file is missing (`build_index.py` line 30, `build_colophon.py` line 58). -/
def missingGatheredMsg : String :=
  "Error: gathered_links.json not found. Run gather_links.py first."

/-- The effect of a `build_index.py` run (`build_index`, lines 23-225) on
the working directory, together with the lines it prints.  A missing
`gathered_links.json` prints an error and returns without writing
(`FileNotFoundError` branch); a non-JSON content would raise an uncaught
decode error, also writing nothing. -/
def buildIndexStep (fs : FS) : FS × List String :=
  match fs "gathered_links.json" with
  | none => (fs, [missingGatheredMsg])
  | some (FileContent.jsonTools tools) =>
    (setFile fs "index.html" (FileContent.page (renderIndexPage tools)),
     ["Built index.html with " ++ toString tools.length ++ " tool(s)"])
  | some (FileContent.page _) => (fs, [])

/-- The effect of a `build_colophon.py` run (`build_colophon`,
lines 51-370) on the working directory, together with the lines it
prints. -/
def buildColophonStep (fs : FS) : FS × List String :=
  match fs "gathered_links.json" with
  | none => (fs, [missingGatheredMsg])
  | some (FileContent.jsonTools tools) =>
    (setFile fs "colophon.html" (FileContent.page (renderColophonPage tools)),
     ["Built colophon.html with " ++ toString tools.length ++ " tool(s)"])
  | some (FileContent.page _) => (fs, [])

/-- A full pipeline run: gather, then build the index, then build the
colophon. -/
def pipeline (inputs : List FileInput) (fs : FS) : FS :=
  (buildColophonStep (buildIndexStep (gatherStep inputs fs).1).1).1

/-! ### Helper lemmas about the string primitives -/

theorem head?_dropWhile_false {α} (p : α → Bool) :
    ∀ (l : List α) {c : α}, (l.dropWhile p).head? = some c → p c = false := by
  intro l
  induction l with
  | nil => intro c h; simp at h
  | cons a l ih =>
    intro c h
    by_cases hp : p a
    · rw [List.dropWhile_cons_of_pos hp] at h
      exact ih h
    · rw [List.dropWhile_cons_of_neg hp] at h
      simp at h
      rw [← h]
      exact Bool.eq_false_iff.mpr hp

theorem pystripL_getLast?_not_space (l : List Char) {c : Char}
    (h : (pystripL l).getLast? = some c) : pyIsSpace c = false := by
  unfold pystripL at h
  rw [List.getLast?_reverse] at h
  exact head?_dropWhile_false pyIsSpace _ h

theorem pystripL_head?_not_space (l : List Char) {c : Char}
    (h : (pystripL l).head? = some c) : pyIsSpace c = false := by
  unfold pystripL at h
  rw [List.head?_reverse] at h
  obtain ⟨pre, hpre⟩ := (List.dropWhile_suffix pyIsSpace
    (l := (l.dropWhile pyIsSpace).reverse))
  have hne : (l.dropWhile pyIsSpace).reverse.dropWhile pyIsSpace ≠ [] := by
    intro hnil
    rw [hnil] at h
    simp at h
  have h2 : (pre ++ (l.dropWhile pyIsSpace).reverse.dropWhile pyIsSpace).getLast? = some c := by
    rw [List.getLast?_append_of_ne_nil _ hne]
    exact h
  rw [hpre, List.getLast?_reverse] at h2
  exact head?_dropWhile_false pyIsSpace _ h2

theorem splitAtMostL_length (sep : Char) :
    ∀ (n : Nat) (l : List Char), (splitAtMostL sep n l).length ≤ n + 1 := by
  intro n
  induction n with
  | zero => intro l; simp [splitAtMostL]
  | succ n ih =>
    intro l
    unfold splitAtMostL
    cases hd : l.dropWhile (fun c => !(c == sep)) with
    | nil => simp
    | cons a tail =>
      simpa [Nat.succ_le_succ_iff] using ih tail

theorem parseEntries_eq_filterMap (l : List String) :
    parseEntries l = l.filterMap (fun raw =>
      let entry := pyStrip raw
      if entry = "" then none
      else
        match splitAtMost '|' 2 entry with
        | [h, d, m] => some { hash := h, date := d, message := pyStrip m }
        | _ => none) := by
  induction l with
  | nil => rfl
  | cons raw rest ih =>
    rw [List.filterMap_cons]
    show (let entry := pyStrip raw
      if entry = "" then parseEntries rest
      else
        match splitAtMost '|' 2 entry with
        | [h, d, m] => Commit.mk h d (pyStrip m) :: parseEntries rest
        | _ => parseEntries rest) = _
    by_cases he : pyStrip raw = ""
    · simp only [he, if_pos rfl, ite_true, ih]
    · simp only [he, ite_false]
      rcases hs : splitAtMost '|' 2 (pyStrip raw) with
          _ | ⟨h1, _ | ⟨d1, _ | ⟨m1, _ | ⟨x4, rest4⟩⟩⟩⟩ <;>
        simp [ih]

theorem parseEntries_message_stripped :
    ∀ (l : List String), ∀ c ∈ parseEntries l, ∃ m : String, c.message = pyStrip m := by
  intro l
  induction l with
  | nil => intro c hc; simp [parseEntries] at hc
  | cons raw rest ih =>
    intro c hc
    rw [parseEntries_eq_filterMap, List.filterMap_cons] at hc
    by_cases he : pyStrip raw = ""
    · simp only [he, ite_true] at hc
      rw [← parseEntries_eq_filterMap] at hc
      exact ih c hc
    · simp only [he, ite_false] at hc
      rcases hs : splitAtMost '|' 2 (pyStrip raw) with
          _ | ⟨h1, _ | ⟨d1, _ | ⟨m1, _ | ⟨x4, rest4⟩⟩⟩⟩ <;>
        rw [hs] at hc <;>
        rw [← parseEntries_eq_filterMap] at hc
      · exact ih c hc
      · exact ih c hc
      · exact ih c hc
      · rcases List.mem_cons.mp hc with hceq | hmem
        · exact ⟨m1, by rw [hceq]⟩
        · exact ih c hmem
      · exact ih c hc

/-- C5: every commit record produced by `get_file_commit_details` is built
from a NUL-separated entry of the git-log output: a stripped non-empty
entry is split on `|` into at most three parts (`maxsplit=2`), an entry
splitting into at least (hence exactly) three parts yields the record
`{hash, date, message}` with the message stripped of surrounding
whitespace, and any other entry yields no record.  The third conjunct
witnesses the stripping: a produced message has no leading or trailing
whitespace. -/
theorem commit_details_characterisation (stdout : String) :
    (get_file_commit_details stdout =
      (splitOnChar (Char.ofNat 0) stdout).filterMap (fun raw =>
        let entry := pyStrip raw
        if entry = "" then none
        else
          match splitAtMost '|' 2 entry with
          | [h, d, m] => some { hash := h, date := d, message := pyStrip m }
          | _ => none)) ∧
    (∀ e : String, (splitAtMost '|' 2 e).length ≤ 3) ∧
    (∀ c ∈ get_file_commit_details stdout,
      (∀ x, c.message.data.head? = some x → pyIsSpace x = false) ∧
      (∀ x, c.message.data.getLast? = some x → pyIsSpace x = false)) := by
  refine ⟨parseEntries_eq_filterMap _, fun e => ?_, fun c hc => ?_⟩
  · have := splitAtMostL_length '|' 2 e.data
    simpa [splitAtMost] using this
  · obtain ⟨m, hm⟩ := parseEntries_message_stripped _ c hc
    constructor
    · intro x hx
      rw [hm] at hx
      exact pystripL_head?_not_space _ hx
    · intro x hx
      rw [hm] at hx
      exact pystripL_getLast?_not_space _ hx

/-- Witness for the C5 theorem at a concrete git-log output: one good
entry, one short entry and one empty entry. -/
theorem commit_details_characterisation_witness :
    ({ hash := "h", date := "d", message := "m" } : Commit) ∈
        get_file_commit_details "h|d| m \x00junk\x00" ∧
    pyIsSpace 'm' = false := by
  refine ⟨by decide, ?_⟩
  exact ((commit_details_characterisation "h|d| m \x00junk\x00").2.2
    { hash := "h", date := "d", message := "m" } (by decide)).1 'm' (by decide)

/-! ### The gather step: membership lemmas and claims C1, C4, C8 -/

theorem mem_gatherTools {inputs : List FileInput} {t : Tool}
    (ht : t ∈ gatherTools inputs) : ∃ fi ∈ inputs, toolOfInput fi = some t := by
  have hperm := List.perm_insertionSort toolOrder (inputs.filterMap toolOfInput)
  have hmem : t ∈ inputs.filterMap toolOfInput := hperm.mem_iff.mp ht
  obtain ⟨fi, hfi, heq⟩ := List.mem_filterMap.mp hmem
  exact ⟨fi, hfi, heq⟩

theorem toolOfInput_fields {fi : FileInput} {t : Tool}
    (h : toolOfInput fi = some t) :
    t.commits = get_file_commit_details fi.gitStdout ∧
    t.commits ≠ [] ∧
    t.created = t.commits.getLast?.map Commit.date ∧
    t.updated = t.commits.head?.map Commit.date ∧
    t.urls = (t.commits.flatMap (fun c => extract_urls c.message)).dedup := by
  unfold toolOfInput at h
  by_cases hskip : fi.name ∈ skipNames
  · simp [hskip] at h
  · simp only [hskip, ite_false] at h
    by_cases hemp : get_file_commit_details fi.gitStdout = []
    · simp [hemp] at h
    · simp only [hemp, ite_false, Option.some.injEq] at h
      rw [← h]
      exact ⟨rfl, hemp, rfl, rfl, rfl⟩

/-- C1: every tool record produced by the gather step has a non-empty
commit list, its `created` timestamp is the date of the last commit of
that list (the oldest, the list being in git-log newest-first order) and
its `updated` timestamp is the date of the first commit (the newest). -/
theorem gather_created_updated (inputs : List FileInput) (t : Tool)
    (ht : t ∈ gatherTools inputs) :
    t.commits ≠ [] ∧
    t.created = t.commits.getLast?.map Commit.date ∧
    t.updated = t.commits.head?.map Commit.date := by
  obtain ⟨fi, _, heq⟩ := mem_gatherTools ht
  obtain ⟨_, hne, hc, hu, _⟩ := toolOfInput_fields heq
  exact ⟨hne, hc, hu⟩

/-- C4: the `urls` field of every tool record produced by the gather step
contains no duplicate entries (the URLs collected from all commit messages
are deduplicated before being stored). -/
theorem gather_urls_nodup (inputs : List FileInput) (t : Tool)
    (ht : t ∈ gatherTools inputs) : t.urls.Nodup := by
  obtain ⟨fi, _, heq⟩ := mem_gatherTools ht
  obtain ⟨_, _, _, _, hurls⟩ := toolOfInput_fields heq
  rw [hurls]
  exact List.nodup_dedup _

/-- C8: the tool list of a gather run (the list written to
`gathered_links.json`) is sorted in descending order of the `updated`
timestamp under string comparison, a missing (`None`) value being treated
as the empty string (`x['updated'] or ''`) and therefore sorting last. -/
theorem gather_sorted_by_updated (inputs : List FileInput) :
    (gatherTools inputs).Sorted
      (fun a b => (b.updated.getD "") ≤ (a.updated.getD "")) := by
  haveI : IsTotal Tool toolOrder :=
    ⟨fun a b => le_total (b.updated.getD "") (a.updated.getD "")⟩
  haveI : IsTrans Tool toolOrder :=
    ⟨fun a b c hab hbc => le_trans hbc hab⟩
  exact List.sorted_insertionSort toolOrder _

/-- A one-file input used to witness the gather-step theorems. -/
def wInput : FileInput :=
  { name := "beta.html"
    gitStdout := "h|2024-01-02T03:04:05+00:00|msg\x00"
    content := none }

/-- The tool record gathered from `wInput`. -/
def wTool : Tool :=
  { file := "beta.html", slug := "beta", title := "Beta", description := ""
    commits := [{ hash := "h", date := "2024-01-02T03:04:05+00:00", message := "msg" }]
    urls := []
    created := some "2024-01-02T03:04:05+00:00"
    updated := some "2024-01-02T03:04:05+00:00" }

/-- Witness for the C1 theorem at a concrete gather input. -/
theorem gather_created_updated_witness :
    wTool ∈ gatherTools [wInput] ∧
    (wTool.commits ≠ [] ∧
     wTool.created = wTool.commits.getLast?.map Commit.date ∧
     wTool.updated = wTool.commits.head?.map Commit.date) :=
  ⟨by decide, gather_created_updated [wInput] wTool (by decide)⟩

/-- Witness for the C4 theorem at a concrete gather input. -/
theorem gather_urls_nodup_witness :
    wTool ∈ gatherTools [wInput] ∧ wTool.urls.Nodup :=
  ⟨by decide, gather_urls_nodup [wInput] wTool (by decide)⟩

/-- A file input whose git history is empty. -/
def aInput : FileInput :=
  { name := "alpha.html", gitStdout := "", content := none }

/-- Counterexample to C3 as stated: on a scan containing `alpha.html` with
no commit history followed by `beta.html` with one commit, the gather step
neither returns early (the later file is still processed and produces a
record) nor prints any message about the empty history: the only printed
lines are the end-of-run summary. -/
theorem gather_empty_history_counterexample :
    gatherTools [aInput, wInput] = [wTool] ∧
    gatherMessages [aInput, wInput] =
      ["Gathered data for 1 tool(s)", "  - Beta (1 commits)"] := by
  decide

/-- C3 (amended): when a scanned HTML file has no commit history, the
gather step silently skips that file — it produces no record for it,
prints nothing about it, and continues with the remaining files. -/
theorem gather_skips_empty_history (pre post : List FileInput) (fi : FileInput)
    (h : get_file_commit_details fi.gitStdout = []) :
    gatherTools (pre ++ fi :: post) = gatherTools (pre ++ post) ∧
    gatherMessages (pre ++ fi :: post) = gatherMessages (pre ++ post) := by
  have hnone : toolOfInput fi = none := by
    unfold toolOfInput
    by_cases hskip : fi.name ∈ skipNames
    · simp [hskip]
    · simp [hskip, h]
  have htools : gatherTools (pre ++ fi :: post) = gatherTools (pre ++ post) := by
    unfold gatherTools
    rw [List.filterMap_append, List.filterMap_append, List.filterMap_cons, hnone]
  refine ⟨htools, ?_⟩
  unfold gatherMessages
  rw [htools]

/-- Witness for the amended C3 theorem at a concrete gather input. -/
theorem gather_skips_empty_history_witness :
    get_file_commit_details aInput.gitStdout = [] ∧
    gatherTools ([] ++ aInput :: [wInput]) = gatherTools ([] ++ [wInput]) :=
  ⟨by decide, (gather_skips_empty_history [] [wInput] aInput (by decide)).1⟩

/-- The empty working directory. -/
def emptyFS : FS := fun _ => none

/-- C2: if `gathered_links.json` is missing, each build step prints the
error message and returns early: the working directory is left completely
unchanged, so in particular neither `index.html` nor `colophon.html` is
written and any previously existing output remains as it was. -/
theorem build_missing_gathered (fs : FS) (h : fs "gathered_links.json" = none) :
    buildIndexStep fs = (fs, [missingGatheredMsg]) ∧
    buildColophonStep fs = (fs, [missingGatheredMsg]) ∧
    (buildIndexStep fs).1 "index.html" = fs "index.html" ∧
    (buildColophonStep fs).1 "colophon.html" = fs "colophon.html" := by
  have hi : buildIndexStep fs = (fs, [missingGatheredMsg]) := by
    unfold buildIndexStep
    rw [h]
  have hc : buildColophonStep fs = (fs, [missingGatheredMsg]) := by
    unfold buildColophonStep
    rw [h]
  exact ⟨hi, hc, by rw [hi], by rw [hc]⟩

/-- Witness for the C2 theorem on the empty working directory. -/
theorem build_missing_gathered_witness :
    emptyFS "gathered_links.json" = none ∧
    buildIndexStep emptyFS = (emptyFS, [missingGatheredMsg]) ∧
    buildColophonStep emptyFS = (emptyFS, [missingGatheredMsg]) :=
  ⟨rfl, (build_missing_gathered emptyFS rfl).1, (build_missing_gathered emptyFS rfl).2.1⟩

theorem setFile_same (fs : FS) (n : String) (c : FileContent) :
    setFile fs n c n = some c := if_pos rfl

theorem setFile_other (fs : FS) (n : String) (c : FileContent) (m : String)
    (h : m ≠ n) : setFile fs n c m = fs m := if_neg h

/-- C7: a full pipeline run writes exactly `gathered_links.json` (by the
gather step), `index.html` (by the index build) and `colophon.html` (by the
colophon build); every other file of the working directory is left exactly
as it was. -/
theorem pipeline_writes (inputs : List FileInput) (fs : FS) :
    (∀ name, name ∉ ["gathered_links.json", "index.html", "colophon.html"] →
      pipeline inputs fs name = fs name) ∧
    pipeline inputs fs "gathered_links.json" =
      some (FileContent.jsonTools (gatherTools inputs)) ∧
    pipeline inputs fs "index.html" =
      some (FileContent.page (renderIndexPage (gatherTools inputs))) ∧
    pipeline inputs fs "colophon.html" =
      some (FileContent.page (renderColophonPage (gatherTools inputs))) := by
  have hGI : ("gathered_links.json" : String) ≠ "index.html" := by decide
  have hIC : ("index.html" : String) ≠ "colophon.html" := by decide
  have hGC : ("gathered_links.json" : String) ≠ "colophon.html" := by decide
  have e2 : buildIndexStep
      (setFile fs "gathered_links.json" (FileContent.jsonTools (gatherTools inputs))) =
      (setFile (setFile fs "gathered_links.json" (FileContent.jsonTools (gatherTools inputs)))
         "index.html" (FileContent.page (renderIndexPage (gatherTools inputs))),
       ["Built index.html with " ++ toString (gatherTools inputs).length ++ " tool(s)"]) := by
    unfold buildIndexStep
    rw [setFile_same]
  have e3 : buildColophonStep
      (setFile (setFile fs "gathered_links.json" (FileContent.jsonTools (gatherTools inputs)))
         "index.html" (FileContent.page (renderIndexPage (gatherTools inputs)))) =
      (setFile (setFile (setFile fs "gathered_links.json"
           (FileContent.jsonTools (gatherTools inputs)))
         "index.html" (FileContent.page (renderIndexPage (gatherTools inputs))))
         "colophon.html" (FileContent.page (renderColophonPage (gatherTools inputs))),
       ["Built colophon.html with " ++ toString (gatherTools inputs).length ++ " tool(s)"]) := by
    unfold buildColophonStep
    rw [setFile_other _ _ _ _ hGI, setFile_same]
  have epipe : pipeline inputs fs =
      setFile (setFile (setFile fs "gathered_links.json"
           (FileContent.jsonTools (gatherTools inputs)))
         "index.html" (FileContent.page (renderIndexPage (gatherTools inputs))))
         "colophon.html" (FileContent.page (renderColophonPage (gatherTools inputs))) := by
    unfold pipeline gatherStep
    rw [e2, e3]
  refine ⟨?_, ?_, ?_, ?_⟩
  · intro name hname
    simp only [List.mem_cons, List.mem_singleton, not_or] at hname
    obtain ⟨h1, h2, h3, -⟩ := hname
    rw [epipe, setFile_other _ _ _ _ h3, setFile_other _ _ _ _ h2,
      setFile_other _ _ _ _ h1]
  · rw [epipe, setFile_other _ _ _ _ hGC, setFile_other _ _ _ _ hGI, setFile_same]
  · rw [epipe, setFile_other _ _ _ _ hIC, setFile_same]
  · rw [epipe, setFile_same]

/-- Witness for the C7 theorem: an unrelated file of the working directory
is untouched by a pipeline run on the empty directory. -/
theorem pipeline_writes_witness :
    ("notes.txt" : String) ∉ ["gathered_links.json", "index.html", "colophon.html"] ∧
    pipeline [] emptyFS "notes.txt" = emptyFS "notes.txt" :=
  ⟨by decide, (pipeline_writes [] emptyFS).1 "notes.txt" (by decide)⟩

/-! ### Claim C9: totality and truncation of `extract_description` -/


theorem extract_description_some (s : String) :
    extract_description (some s) =
      (match searchFirst metaAt s.data with
       | some g => pyStrip (String.mk g)
       | none =>
         match searchFirst pAt s.data with
         | some g => String.mk ((pystripL g).take 200)
         | none => "") := rfl

/-- C9: `extract_description` is total over its (exception-free) input
model: a failed file read yields `""`; a matching meta-description tag
yields its stripped content; otherwise a matching first `<p>` element
yields its text, stripped and truncated to at most 200 characters; and
with no match at all the result is `""`.  In particular, whenever the meta
tag does not match (the `<p>` fallback and empty cases), the result has
length at most 200. -/
theorem extract_description_spec (s : String) :
    extract_description none = "" ∧
    (∀ g, searchFirst metaAt s.data = some g →
      extract_description (some s) = pyStrip (String.mk g)) ∧
    (searchFirst metaAt s.data = none →
      (∀ g, searchFirst pAt s.data = some g →
        extract_description (some s) = String.mk ((pystripL g).take 200)) ∧
      (searchFirst pAt s.data = none → extract_description (some s) = "") ∧
      (extract_description (some s)).length ≤ 200) := by
  refine ⟨rfl, ?_, ?_⟩
  · intro g hg
    rw [extract_description_some, hg]
  · intro hm
    have hbase : ∀ g, searchFirst pAt s.data = some g →
        extract_description (some s) = String.mk ((pystripL g).take 200) := by
      intro g hp
      rw [extract_description_some, hm, hp]
    refine ⟨hbase, ?_, ?_⟩
    · intro hp
      rw [extract_description_some, hm, hp]
    · cases hp : searchFirst pAt s.data with
      | none =>
        rw [extract_description_some, hm, hp]
        simp
      | some g =>
        rw [hbase g hp]
        simp

/-- Witness for the C9 theorem on a concrete page with no meta description
and a `<p>` element. -/
theorem extract_description_spec_witness :
    searchFirst metaAt ("<html><p>hello</p></html>" : String).data = none ∧
    searchFirst pAt ("<html><p>hello</p></html>" : String).data = some "hello".data ∧
    extract_description (some "<html><p>hello</p></html>") =
      String.mk ((pystripL "hello".data).take 200) ∧
    (extract_description (some "<html><p>hello</p></html>")).length ≤ 200 := by
  refine ⟨by decide, by decide, ?_, ?_⟩
  · exact ((extract_description_spec "<html><p>hello</p></html>").2.2 (by decide)).1
      "hello".data (by decide)
  · exact ((extract_description_spec "<html><p>hello</p></html>").2.2 (by decide)).2.2

/-! ### Claim C6: well-formedness of extracted URLs -/

theorem matchUrl_eq_append {p : Char → Bool} {l u r : List Char}
    (h : matchUrl p l = some (u, r)) : l = u ++ r := by
  unfold matchUrl at h
  by_cases h8 : httpsChars.isPrefixOf l
  · obtain ⟨t, ht⟩ := List.isPrefixOf_iff_prefix.mp h8
    have hdrop : l.drop 8 = t := by
      rw [← ht]
      exact List.drop_left' rfl
    rw [if_pos h8, hdrop] at h
    by_cases hb : t.takeWhile p = []
    · simp [hb] at h
    · simp only [hb, ite_false, Option.some.injEq, Prod.mk.injEq] at h
      rw [← h.1, ← h.2, ← ht, List.append_assoc, List.takeWhile_append_dropWhile]
  · rw [if_neg h8] at h
    by_cases h7 : httpChars.isPrefixOf l
    · obtain ⟨t, ht⟩ := List.isPrefixOf_iff_prefix.mp h7
      have hdrop : l.drop 7 = t := by
        rw [← ht]
        exact List.drop_left' rfl
      rw [if_pos h7, hdrop] at h
      by_cases hb : t.takeWhile p = []
      · simp [hb] at h
      · simp only [hb, ite_false, Option.some.injEq, Prod.mk.injEq] at h
        rw [← h.1, ← h.2, ← ht, List.append_assoc, List.takeWhile_append_dropWhile]
    · simp [h7] at h

theorem matchUrl_shape {p : Char → Bool} {l u r : List Char}
    (h : matchUrl p l = some (u, r)) :
    ∃ body, (u = httpsChars ++ body ∨ u = httpChars ++ body) ∧ body ≠ [] ∧
      ∀ c ∈ body, p c = true := by
  unfold matchUrl at h
  by_cases h8 : httpsChars.isPrefixOf l
  · rw [if_pos h8] at h
    by_cases hb : (l.drop 8).takeWhile p = []
    · simp [hb] at h
    · simp only [hb, ite_false, Option.some.injEq, Prod.mk.injEq] at h
      exact ⟨(l.drop 8).takeWhile p, Or.inl h.1.symm, hb,
        fun c hc => List.mem_takeWhile_imp hc⟩
  · rw [if_neg h8] at h
    by_cases h7 : httpChars.isPrefixOf l
    · rw [if_pos h7] at h
      by_cases hb : (l.drop 7).takeWhile p = []
      · simp [hb] at h
      · simp only [hb, ite_false, Option.some.injEq, Prod.mk.injEq] at h
        exact ⟨(l.drop 7).takeWhile p, Or.inr h.1.symm, hb,
          fun c hc => List.mem_takeWhile_imp hc⟩
    · simp [h7] at h

theorem piecesF_inr {m : List Char → Option (List Char × List Char)} :
    ∀ (fuel : Nat) (l u : List Char), Sum.inr u ∈ piecesF m fuel l →
      ∃ l' r', m l' = some (u, r') := by
  intro fuel
  induction fuel with
  | zero =>
    intro l u hu
    cases l with
    | nil => simp [piecesF] at hu
    | cons c cs => simp [piecesF] at hu
  | succ fuel ih =>
    intro l u hu
    cases l with
    | nil => simp [piecesF] at hu
    | cons c cs =>
      rw [piecesF] at hu
      cases hm : m (c :: cs) with
      | some pr =>
        obtain ⟨u2, r2⟩ := pr
        rw [hm] at hu
        rcases List.mem_cons.mp hu with heq | hmem
        · have hu2 : u = u2 := by injection heq
          exact ⟨c :: cs, r2, by rw [hm, hu2]⟩
        · exact ih _ u hmem
      | none =>
        rw [hm] at hu
        rcases List.mem_cons.mp hu with heq | hmem
        · exact absurd heq (by simp)
        · exact ih _ u hmem

theorem rstripPunct_append (a b : List Char)
    (hlast : ∀ c, a.getLast? = some c → puncts.contains c = false) :
    rstripPunct (a ++ b) = a ++ rstripPunct b := by
  unfold rstripPunct
  rw [List.reverse_append, List.dropWhile_append]
  by_cases hbe : (b.reverse.dropWhile (fun c => puncts.contains c)).isEmpty
  · rw [if_pos hbe]
    have hrev : a.reverse.dropWhile (fun c => puncts.contains c) = a.reverse := by
      cases hr : a.reverse with
      | nil => simp
      | cons x xs =>
        have hx : a.getLast? = some x := by
          rw [← List.head?_reverse, hr]
          rfl
        rw [List.dropWhile_cons_of_neg (by rw [hlast x hx]; simp)]
    rw [hrev, List.reverse_reverse]
    rw [List.isEmpty_iff] at hbe
    rw [hbe]
    simp
  · rw [if_neg hbe, List.reverse_append, List.reverse_reverse]

theorem rstripPunct_getLast {l : List Char} {c : Char}
    (h : (rstripPunct l).getLast? = some c) : puncts.contains c = false := by
  unfold rstripPunct at h
  rw [List.getLast?_reverse] at h
  exact head?_dropWhile_false _ _ h

theorem rstripPunct_subset (l : List Char) : ∀ c ∈ rstripPunct l, c ∈ l := by
  intro c hc
  unfold rstripPunct at hc
  rw [List.mem_reverse] at hc
  have := (List.dropWhile_sublist (l := l.reverse) (fun c => puncts.contains c)).subset hc
  rwa [List.mem_reverse] at this

/-- C6: every string returned by `extract_urls` begins with `http://` or
`https://`; none of its characters is whitespace or one of the characters
excluded by the URL regex class (`<`, `>`, double quote, single quote,
parentheses, square brackets, curly braces, NUL — the list `gatherBad`);
and its last character is not one of `.,;:!?`. -/
theorem extract_urls_wellformed (text : String) (url : String)
    (hu : url ∈ extract_urls text) :
    ("http://".data <+: url.data ∨ "https://".data <+: url.data) ∧
    (∀ c ∈ url.data, pyIsSpace c = false ∧ gatherBad.contains c = false) ∧
    (∀ c, url.data.getLast? = some c → puncts.contains c = false) := by
  unfold extract_urls at hu
  obtain ⟨u, humem, hurl⟩ := List.mem_map.mp hu
  obtain ⟨pc, hpc, hmp⟩ := List.mem_filterMap.mp humem
  have hinr : pc = Sum.inr u := by
    cases pc with
    | inl c => simp [matchedPiece] at hmp
    | inr v => simp [matchedPiece] at hmp; rw [hmp]
  rw [hinr] at hpc
  obtain ⟨l', r', hmatch⟩ := piecesF_inr _ _ _ hpc
  obtain ⟨body, hscheme, hbne, hbp⟩ := matchUrl_shape hmatch
  have hsch7 : ("http://" : String).data = httpChars := by decide
  have hsch8 : ("https://" : String).data = httpsChars := by decide
  have hlast7 : ∀ c, httpChars.getLast? = some c → puncts.contains c = false := by decide
  have hlast8 : ∀ c, httpsChars.getLast? = some c → puncts.contains c = false := by decide
  have hchars7 : ∀ c ∈ httpChars, pyIsSpace c = false ∧ gatherBad.contains c = false := by
    decide
  have hchars8 : ∀ c ∈ httpsChars, pyIsSpace c = false ∧ gatherBad.contains c = false := by
    decide
  have hdata : url.data = rstripPunct u := by rw [← hurl]
  rcases hscheme with h8 | h7
  · have hsplit : rstripPunct u = httpsChars ++ rstripPunct body := by
      rw [h8]
      exact rstripPunct_append _ _ hlast8
    refine ⟨Or.inr ?_, ?_, ?_⟩
    · rw [hdata, hsplit, hsch8]
      exact ⟨rstripPunct body, rfl⟩
    · intro c hc
      rw [hdata, hsplit] at hc
      rcases List.mem_append.mp hc with hs | hb
      · exact hchars8 c hs
      · have hcb : c ∈ body := rstripPunct_subset body c hb
        have hpb : gatherAllowed c = true := hbp c hcb
        unfold gatherAllowed at hpb
        simp only [Bool.not_eq_true', Bool.or_eq_false_iff] at hpb
        exact hpb
    · intro c hc
      rw [hdata] at hc
      exact rstripPunct_getLast hc
  · have hsplit : rstripPunct u = httpChars ++ rstripPunct body := by
      rw [h7]
      exact rstripPunct_append _ _ hlast7
    refine ⟨Or.inl ?_, ?_, ?_⟩
    · rw [hdata, hsplit, hsch7]
      exact ⟨rstripPunct body, rfl⟩
    · intro c hc
      rw [hdata, hsplit] at hc
      rcases List.mem_append.mp hc with hs | hb
      · exact hchars7 c hs
      · have hcb : c ∈ body := rstripPunct_subset body c hb
        have hpb : gatherAllowed c = true := hbp c hcb
        unfold gatherAllowed at hpb
        simp only [Bool.not_eq_true', Bool.or_eq_false_iff] at hpb
        exact hpb
    · intro c hc
      rw [hdata] at hc
      exact rstripPunct_getLast hc

/-- Witness for the C6 theorem on a concrete commit-message text. -/
theorem extract_urls_wellformed_witness :
    ("https://ex.com/a" : String) ∈ extract_urls "go to https://ex.com/a, now" ∧
    ("http://".data <+: ("https://ex.com/a" : String).data ∨
     "https://".data <+: ("https://ex.com/a" : String).data) :=
  ⟨by decide,
   (extract_urls_wellformed "go to https://ex.com/a, now" "https://ex.com/a" (by decide)).1⟩

/-! ### Claim C10: escaping accounting for `format_commit_message` -/

/-- The number of regex matches replaced by the URL-linkification pass on
input `l`. -/
def urlMatchCount (l : List Char) : Nat :=
  (piecesF (matchUrl colophonAllowed) l.length l).countP (fun pc => pc.isRight)

/-- The number of regex matches replaced by the issue-linkification pass on
input `l`. -/
def issueMatchCount (l : List Char) : Nat :=
  (piecesF matchIssue l.length l).countP (fun pc => pc.isRight)

theorem count_flatMap_piecesF
    (m : List Char → Option (List Char × List Char))
    (repl : Char ⊕ List Char → List Char) (x : Char) (C : Nat)
    (hplain : ∀ c : Char, repl (Sum.inl c) = [c])
    (hmatch : ∀ l u r, m l = some (u, r) →
      l = u ++ r ∧ r.length < l.length ∧
      (repl (Sum.inr u)).count x = C ∧ u.count x = 0) :
    ∀ (fuel : Nat) (l : List Char), l.length ≤ fuel →
      ((piecesF m fuel l).flatMap repl).count x =
        l.count x + C * (piecesF m fuel l).countP (fun pc => pc.isRight) := by
  intro fuel
  induction fuel with
  | zero =>
    intro l hl
    cases l with
    | nil => simp [piecesF]
    | cons c cs => simp at hl
  | succ fuel ih =>
    intro l hl
    cases l with
    | nil => simp [piecesF]
    | cons c cs =>
      rw [piecesF]
      cases hm : m (c :: cs) with
      | none =>
        have ihcs := ih cs (by simpa using Nat.le_of_succ_le_succ hl)
        rw [List.flatMap_cons, List.count_append, ihcs, hplain,
          List.countP_cons_of_neg _ _ (by simp)]
        have hc : (c :: cs).count x = cs.count x + List.count x [c] := by
          simp [List.count_cons]
        rw [hc]
        ring
      | some pr =>
        obtain ⟨u, r⟩ := pr
        obtain ⟨hsplit, hlen, hrepl, hu0⟩ := hmatch _ _ _ hm
        have hr : r.length ≤ fuel := by omega
        have ihr := ih r hr
        rw [List.flatMap_cons, List.count_append, ihr, hrepl,
          List.countP_cons_of_pos _ _ (by simp), hsplit, List.count_append, hu0]
        ring

theorem matchUrl_consumes {p : Char → Bool} {l u r : List Char}
    (h : matchUrl p l = some (u, r)) : r.length < l.length := by
  obtain ⟨body, hscheme, hbne, -⟩ := matchUrl_shape h
  have hlen := congrArg List.length (matchUrl_eq_append h)
  rw [List.length_append] at hlen
  have hu : u.length > 0 := by
    rcases hscheme with h8 | h7
    · rw [h8, List.length_append]
      have h8l : httpsChars.length = 8 := rfl
      omega
    · rw [h7, List.length_append]
      have h7l : httpChars.length = 7 := rfl
      omega
  omega

theorem anchorChars_count (x : Char) (u : List Char) :
    (anchorChars u).count x = (anchorChars []).count x + 2 * u.count x := by
  unfold anchorChars
  simp only [List.count_append, List.count_nil]
  ring

theorem matchUrl_count_zero {x : Char} (hx : colophonAllowed x = false)
    (hs7 : httpChars.count x = 0) (hs8 : httpsChars.count x = 0)
    {l u r : List Char} (h : matchUrl colophonAllowed l = some (u, r)) :
    u.count x = 0 := by
  obtain ⟨body, hscheme, -, hbp⟩ := matchUrl_shape h
  have hbody : body.count x = 0 := by
    rw [List.count_eq_zero]
    intro hmem
    have hcx := hbp x hmem
    rw [hx] at hcx
    exact Bool.false_ne_true hcx
  rcases hscheme with h8 | h7
  · rw [h8, List.count_append, hs8, hbody]
  · rw [h7, List.count_append, hs7, hbody]

/-- The counting behaviour of the URL-linkification pass, for a character
`x` outside the URL class and absent from the scheme literals: each of the
`urlMatchCount` replacements contributes the `x`-count of the constant
anchor template, everything else is preserved. -/
theorem linkifyUrls_count (x : Char) (hx : colophonAllowed x = false)
    (hs7 : httpChars.count x = 0) (hs8 : httpsChars.count x = 0) (l : List Char) :
    (linkifyUrls l).count x =
      l.count x + (anchorChars []).count x * urlMatchCount l := by
  unfold linkifyUrls urlMatchCount
  exact count_flatMap_piecesF _ urlRepl x ((anchorChars []).count x)
    (fun c => rfl)
    (fun l' u r h => ⟨matchUrl_eq_append h, matchUrl_consumes h,
      by
        show (anchorChars u).count x = _
        rw [anchorChars_count, matchUrl_count_zero hx hs7 hs8 h]
        ring
      , matchUrl_count_zero hx hs7 hs8 h⟩)
    l.length l (Nat.le_refl _)

theorem matchIssue_spec {l u r : List Char} (h : matchIssue l = some (u, r)) :
    l = u ++ r ∧ r.length < l.length ∧
    ∃ ds, u = '#' :: ds ∧ ds ≠ [] ∧ ∀ c ∈ ds, c.isDigit = true := by
  cases l with
  | nil => simp [matchIssue] at h
  | cons c rest =>
    have hred : matchIssue (c :: rest) =
        (if c == '#' then
          match rest.takeWhile Char.isDigit with
          | [] => none
          | ds => some (c :: ds, rest.dropWhile Char.isDigit)
        else none) := rfl
    rw [hred] at h
    by_cases hc : c == '#'
    · rw [if_pos hc] at h
      cases hds : rest.takeWhile Char.isDigit with
      | nil => rw [hds] at h; simp at h
      | cons d ds =>
        rw [hds] at h
        simp only [Option.some.injEq, Prod.mk.injEq] at h
        obtain ⟨hu, hr⟩ := h
        have hceq : c = '#' := by simpa using hc
        have hsplit : c :: rest = u ++ r := by
          rw [← hu, ← hr, hceq, List.cons_append, ← hds,
            List.takeWhile_append_dropWhile]
        refine ⟨hsplit, ?_, d :: ds, by rw [← hu, hceq], by simp, ?_⟩
        · have : u.length > 0 := by rw [← hu]; simp
          have := congrArg List.length hsplit
          rw [List.length_append] at this
          omega
        · intro x hx
          rw [← hds] at hx
          exact List.mem_takeWhile_imp hx
    · rw [if_neg hc] at h
      simp at h

theorem issueAnchor_count (x : Char) (ds : List Char) :
    (issueAnchor ds).count x = (issueAnchor []).count x + 2 * ds.count x := by
  unfold issueAnchor
  simp only [List.count_append, List.count_nil]
  ring

theorem matchIssue_count_zero {x : Char} (hxd : x.isDigit = false)
    (hxh : x ≠ '#') {l u r : List Char} (h : matchIssue l = some (u, r)) :
    u.count x = 0 := by
  obtain ⟨-, -, ds, hu, -, hds⟩ := matchIssue_spec h
  rw [hu, List.count_eq_zero]
  intro hmem
  rcases List.mem_cons.mp hmem with heq | hmem2
  · exact hxh heq
  · have := hds x hmem2
    rw [hxd] at this
    exact Bool.false_ne_true this

/-- The counting behaviour of the issue-linkification pass, for a
non-digit character `x` other than `#`. -/
theorem linkifyIssues_count (x : Char) (hxd : x.isDigit = false)
    (hxh : x ≠ '#') (l : List Char) :
    (linkifyIssues l).count x =
      l.count x + (issueAnchor []).count x * issueMatchCount l := by
  unfold linkifyIssues issueMatchCount
  exact count_flatMap_piecesF _ issueRepl x ((issueAnchor []).count x)
    (fun c => rfl)
    (fun l' u r h => by
      obtain ⟨hsplit, hlen, ds, hu, -, -⟩ := matchIssue_spec h
      refine ⟨hsplit, hlen, ?_, matchIssue_count_zero hxd hxh h⟩
      show (issueAnchor u.tail).count x = _
      have hds0 : ds.count x = 0 := by
        have := matchIssue_count_zero hxd hxh h
        rw [hu, List.count_cons] at this
        omega
      rw [hu]
      show (issueAnchor ds).count x = _
      rw [issueAnchor_count, hds0]
      ring)
    l.length l (Nat.le_refl _)

theorem count_singleton_eq (x c : Char) :
    List.count x [c] = if c == x then 1 else 0 := by
  rw [List.count_cons, List.count_nil, Nat.zero_add]

theorem count_cons_split (x c : Char) (cs : List Char) :
    (c :: cs).count x = cs.count x + List.count x [c] := by
  rw [List.count_cons, count_singleton_eq]

/-- The characters that `html.escape` turns into entities. -/
def escTargets (c : Char) : Bool :=
  c == '&' || c == '<' || c == '>' || c == Char.ofNat 34 || c == Char.ofNat 39

theorem escChar_eq_self (c : Char) (h1 : ¬c = '&') (h2 : ¬c = '<') (h3 : ¬c = '>')
    (h4 : ¬c = Char.ofNat 34) (h5 : ¬c = Char.ofNat 39) : escChar c = [c] := by
  unfold escChar
  rw [if_neg (by simp [h1]), if_neg (by simp [h2]), if_neg (by simp [h3]),
    if_neg (by simp [h4]), if_neg (by simp [h5])]

theorem escChar_count_lt (c : Char) : (escChar c).count '<' = 0 := by
  by_cases h1 : c = '&'
  · subst h1; decide
  by_cases h2 : c = '<'
  · subst h2; decide
  by_cases h3 : c = '>'
  · subst h3; decide
  by_cases h4 : c = Char.ofNat 34
  · subst h4; decide
  by_cases h5 : c = Char.ofNat 39
  · subst h5; decide
  rw [escChar_eq_self c h1 h2 h3 h4 h5, count_singleton_eq, if_neg (by simp [h2])]

theorem escChar_count_gt (c : Char) : (escChar c).count '>' = 0 := by
  by_cases h1 : c = '&'
  · subst h1; decide
  by_cases h2 : c = '<'
  · subst h2; decide
  by_cases h3 : c = '>'
  · subst h3; decide
  by_cases h4 : c = Char.ofNat 34
  · subst h4; decide
  by_cases h5 : c = Char.ofNat 39
  · subst h5; decide
  rw [escChar_eq_self c h1 h2 h3 h4 h5, count_singleton_eq, if_neg (by simp [h3])]

theorem escChar_count_amp (c : Char) :
    (escChar c).count '&' = if escTargets c then 1 else 0 := by
  by_cases h1 : c = '&'
  · subst h1; decide
  by_cases h2 : c = '<'
  · subst h2; decide
  by_cases h3 : c = '>'
  · subst h3; decide
  by_cases h4 : c = Char.ofNat 34
  · subst h4; decide
  by_cases h5 : c = Char.ofNat 39
  · subst h5; decide
  have e2 : escTargets c = false := by
    unfold escTargets
    simp [h1, h2, h3, h4, h5]
  rw [escChar_eq_self c h1 h2 h3 h4 h5, e2, count_singleton_eq,
    if_neg (by simp [h1]), if_neg (by simp)]

theorem escChar_count_nl (c : Char) :
    (escChar c).count '\n' = List.count '\n' [c] := by
  by_cases h1 : c = '&'
  · subst h1; decide
  by_cases h2 : c = '<'
  · subst h2; decide
  by_cases h3 : c = '>'
  · subst h3; decide
  by_cases h4 : c = Char.ofNat 34
  · subst h4; decide
  by_cases h5 : c = Char.ofNat 39
  · subst h5; decide
  rw [escChar_eq_self c h1 h2 h3 h4 h5]

theorem escChars_count_lt (l : List Char) : (escChars l).count '<' = 0 := by
  induction l with
  | nil => rfl
  | cons c cs ih =>
    unfold escChars at ih ⊢
    rw [List.flatMap_cons, List.count_append, ih, escChar_count_lt]

theorem escChars_count_gt (l : List Char) : (escChars l).count '>' = 0 := by
  induction l with
  | nil => rfl
  | cons c cs ih =>
    unfold escChars at ih ⊢
    rw [List.flatMap_cons, List.count_append, ih, escChar_count_gt]

theorem escChars_count_amp (l : List Char) :
    (escChars l).count '&' = l.countP escTargets := by
  induction l with
  | nil => rfl
  | cons c cs ih =>
    unfold escChars at ih ⊢
    rw [List.flatMap_cons, List.count_append, ih, escChar_count_amp,
      List.countP_cons]
    ring

theorem escChars_count_nl (l : List Char) :
    (escChars l).count '\n' = l.count '\n' := by
  induction l with
  | nil => rfl
  | cons c cs ih =>
    unfold escChars at ih ⊢
    rw [List.flatMap_cons, List.count_append, ih, escChar_count_nl,
      count_cons_split '\n' c cs]
    ring

theorem brChar_count_lt (c : Char) :
    (brChar c).count '<' = List.count '<' [c] + List.count '\n' [c] := by
  by_cases hc : c = '\n'
  · subst hc; decide
  · unfold brChar
    rw [if_neg (by simp [hc]), count_singleton_eq '\n' c, if_neg (by simp [hc])]
    omega

theorem brChar_count_gt (c : Char) :
    (brChar c).count '>' = List.count '>' [c] + List.count '\n' [c] := by
  by_cases hc : c = '\n'
  · subst hc; decide
  · unfold brChar
    rw [if_neg (by simp [hc]), count_singleton_eq '\n' c, if_neg (by simp [hc])]
    omega

theorem brChar_count_amp (c : Char) :
    (brChar c).count '&' = List.count '&' [c] := by
  by_cases hc : c = '\n'
  · subst hc; decide
  · unfold brChar
    rw [if_neg (by simp [hc])]

theorem brExpand_count_lt (l : List Char) :
    (brExpand l).count '<' = l.count '<' + l.count '\n' := by
  induction l with
  | nil => rfl
  | cons c cs ih =>
    unfold brExpand at ih ⊢
    rw [List.flatMap_cons, List.count_append, ih, brChar_count_lt,
      count_cons_split '<' c cs, count_cons_split '\n' c cs]
    ring

theorem brExpand_count_gt (l : List Char) :
    (brExpand l).count '>' = l.count '>' + l.count '\n' := by
  induction l with
  | nil => rfl
  | cons c cs ih =>
    unfold brExpand at ih ⊢
    rw [List.flatMap_cons, List.count_append, ih, brChar_count_gt,
      count_cons_split '>' c cs, count_cons_split '\n' c cs]
    ring

theorem brExpand_count_amp (l : List Char) :
    (brExpand l).count '&' = l.count '&' := by
  induction l with
  | nil => rfl
  | cons c cs ih =>
    unfold brExpand at ih ⊢
    rw [List.flatMap_cons, List.count_append, ih, brChar_count_amp,
      count_cons_split '&' c cs]
    ring

/-- C10: accounting of markup characters in `format_commit_message`.  The
characters `<`, `>`, `&` of the input message never appear verbatim in the
output: every `<` (and likewise every `>`) of the output belongs to
inserted markup — exactly two per URL anchor, two per issue anchor and one
per `<br>` substituted for a newline — while every `&` of the output is
the lead of an entity, one for each escaped input character
(`&`, `<`, `>`, `"`, `'`); the input's own `<`, `>`, `&` contribute
nothing to the `<`/`>` counts and appear only through their entities. -/
theorem format_commit_message_escapes (m : String) :
    (format_commit_message m).data.count '<' =
      2 * urlMatchCount (escChars m.data) +
        2 * issueMatchCount (linkifyUrls (escChars m.data)) + m.data.count '\n' ∧
    (format_commit_message m).data.count '>' =
      2 * urlMatchCount (escChars m.data) +
        2 * issueMatchCount (linkifyUrls (escChars m.data)) + m.data.count '\n' ∧
    (format_commit_message m).data.count '&' = m.data.countP escTargets := by
  have ha_lt : (anchorChars []).count '<' = 2 := by decide
  have ha_gt : (anchorChars []).count '>' = 2 := by decide
  have ha_amp : (anchorChars []).count '&' = 0 := by decide
  have ha_nl : (anchorChars []).count '\n' = 0 := by decide
  have hi_lt : (issueAnchor []).count '<' = 2 := by decide
  have hi_gt : (issueAnchor []).count '>' = 2 := by decide
  have hi_amp : (issueAnchor []).count '&' = 0 := by decide
  have hi_nl : (issueAnchor []).count '\n' = 0 := by decide
  have eu_lt : (linkifyUrls (escChars m.data)).count '<' =
      2 * urlMatchCount (escChars m.data) := by
    rw [linkifyUrls_count '<' (by decide) (by decide) (by decide),
      escChars_count_lt, ha_lt]
    omega
  have eu_gt : (linkifyUrls (escChars m.data)).count '>' =
      2 * urlMatchCount (escChars m.data) := by
    rw [linkifyUrls_count '>' (by decide) (by decide) (by decide),
      escChars_count_gt, ha_gt]
    omega
  have eu_amp : (linkifyUrls (escChars m.data)).count '&' =
      m.data.countP escTargets := by
    rw [linkifyUrls_count '&' (by decide) (by decide) (by decide),
      escChars_count_amp, ha_amp]
    omega
  have eu_nl : (linkifyUrls (escChars m.data)).count '\n' = m.data.count '\n' := by
    rw [linkifyUrls_count '\n' (by decide) (by decide) (by decide),
      escChars_count_nl, ha_nl]
    omega
  have ei_lt : (linkifyIssues (linkifyUrls (escChars m.data))).count '<' =
      2 * urlMatchCount (escChars m.data) +
        2 * issueMatchCount (linkifyUrls (escChars m.data)) := by
    rw [linkifyIssues_count '<' (by decide) (by decide), eu_lt, hi_lt]
  have ei_gt : (linkifyIssues (linkifyUrls (escChars m.data))).count '>' =
      2 * urlMatchCount (escChars m.data) +
        2 * issueMatchCount (linkifyUrls (escChars m.data)) := by
    rw [linkifyIssues_count '>' (by decide) (by decide), eu_gt, hi_gt]
  have ei_amp : (linkifyIssues (linkifyUrls (escChars m.data))).count '&' =
      m.data.countP escTargets := by
    rw [linkifyIssues_count '&' (by decide) (by decide), eu_amp, hi_amp]
    omega
  have ei_nl : (linkifyIssues (linkifyUrls (escChars m.data))).count '\n' =
      m.data.count '\n' := by
    rw [linkifyIssues_count '\n' (by decide) (by decide), eu_nl, hi_nl]
    omega
  refine ⟨?_, ?_, ?_⟩
  · show (brExpand (linkifyIssues (linkifyUrls (escChars m.data)))).count '<' = _
    rw [brExpand_count_lt, ei_lt, ei_nl]
  · show (brExpand (linkifyIssues (linkifyUrls (escChars m.data)))).count '>' = _
    rw [brExpand_count_gt, ei_gt, ei_nl]
  · show (brExpand (linkifyIssues (linkifyUrls (escChars m.data)))).count '&' = _
    rw [brExpand_count_amp, ei_amp]
